import Mathlib

/-!
Verification of the preload-webpack-plugin (`src/index.js`).

The JavaScript source is shallowly embedded below.  JS objects whose field
names matter (the produced tag objects) are embedded as association lists of
string keys; JS objects used purely structurally (compilation, chunks, the
html-plugin data) are embedded as Lean structures whose field names follow the
source.  Regular-expression options (`fileWhitelist` / `fileBlacklist`) are
embedded as boolean predicates on strings (the semantics of `regex.test`).
The four helper modules required by `src/index.js` (`./lib/extract-chunks`,
`./lib/does-chunk-belong-to-html`, `./lib/determine-as-value`,
`./lib/default-options`) are not part of the repository snapshot; the
definitions that stand in for them are modelled from the specification and
are marked as such in their doc comments.
-/

namespace Preload

/-- Attribute object of a produced link tag: `{href, rel, as?, crossorigin?}`.
`none` models an absent attribute (the JS property being unset). -/
structure Attributes where
  href : String
  rel : String
  as : Option String
  crossorigin : Option String
deriving DecidableEq

/-- Values stored in the produced tag objects. -/
inductive TagValue where
  | str (s : String)
  | attrs (a : Attributes)
  | bool (b : Bool)
deriving DecidableEq

/-- A JS tag object, embedded as an association list so that the names of its
fields are part of the model (the source writes an object literal
`{tagName: 'link', attributes, voidTag: true}`). -/
abbrev Tag := List (String × TagValue)

/-- A webpack chunk, with the fields `src/index.js` reads:
`files`, `names`, `idHints`, `size`, `hash`.  `initial` records whether the
chunk is an initial (non-async) chunk; it is read only by the spec-modelled
chunk extractor. -/
structure Chunk where
  files : List String
  names : List String
  idHints : List String
  size : Nat
  hash : String
  initial : Bool
deriving DecidableEq

/-- `compilation.outputOptions`; `publicPath` may be unset (`none`). -/
structure OutputOptions where
  publicPath : Option String
deriving DecidableEq

/-- The compilation state read by the plugin: its chunks, output options and
hash, plus the chunk list returned by `compilation.getStats().toJson({chunks:
true})` (a host-owned snapshot, embedded as data). -/
structure Compilation where
  chunks : List Chunk
  outputOptions : OutputOptions
  hash : String
  statsChunks : List Chunk
deriving DecidableEq

/-- One value of the synthesized `assets.chunks` map built by `buildReducer`:
`{size?, entry?, hash?, css}`. -/
structure ChunkInfo where
  size : Option Nat
  entry : Option String
  hash : Option String
  css : List String
deriving DecidableEq

/-- `htmlPluginData.assets`: the script and style files referenced by the
document and the chunk-name → info map (a JS object, embedded as an
association list with object-update semantics). -/
structure Assets where
  js : List String
  css : List String
  chunks : List (String × ChunkInfo)
deriving DecidableEq

/-- `htmlPluginData.plugin.options`: the html plugin's output filename and its
cache-busting `hash` flag. -/
structure HtmlPluginOptions where
  filename : String
  hash : Bool
deriving DecidableEq

/-- `htmlPluginData.plugin`: version number and options of the host html
plugin. -/
structure HtmlPlugin where
  version : Nat
  options : HtmlPluginOptions
deriving DecidableEq

/-- The per-document descriptor handed to the hooks: the host plugin handle,
the referenced assets, and the already-assembled tag lists (`headTags` for
version ≥ 4 hosts, `head` for older ones). -/
structure HtmlPluginData where
  plugin : HtmlPlugin
  assets : Assets
  headTags : List Tag
  head : List Tag
deriving DecidableEq

/-- The configured `as` option: absent (default policy), a fixed string, or a
function from the file extension to an `as` value. -/
inductive AsOption where
  | undef
  | fixed (s : String)
  | byExtension (f : String → Option String)

/-- The plugin configuration (`this.options`).  Whitelist/blacklist patterns
are boolean predicates on file paths (the semantics of `regex.test`);
`none` models an option that was not supplied. -/
structure Options where
  rel : String
  «include» : String
  as : AsOption
  fileWhitelist : Option (List (String → Bool))
  fileBlacklist : Option (List (String → Bool))
  includeHtmlNames : Option (List String)
  excludeHtmlNames : Option (List String)

/-- The mutable state of a `PreloadPlugin` instance: its options and the
`resourceHints` field written by `generateLinks` (`none` before the first
write). -/
structure PluginState where
  options : Options
  resourceHints : Option (List Tag)

/-- Extension of a file path: the text after the last `.`, empty when the path
has no dot. -/
def fileExtension (file : String) : String :=
  let rev := file.data.reverse
  if rev.contains '.' then String.mk ((rev.takeWhile (fun c => c ≠ '.')).reverse)
  else ""

/-- Modelled from the spec: the default `as` policy of the missing
`./lib/determine-as-value` module — "default policy resolves by extension:
`.css`→style, `.js`→script, `.woff`/`.woff2`/`.ttf`/`.eot`→font, image
extensions→image, otherwise omitted". -/
def defaultAsPolicy (ext : String) : Option String :=
  if ext = "css" then some "style"
  else if ext = "js" then some "script"
  else if ext = "woff" ∨ ext = "woff2" ∨ ext = "ttf" ∨ ext = "eot" then some "font"
  else if ext = "png" ∨ ext = "jpg" ∨ ext = "jpeg" ∨ ext = "gif" ∨ ext = "svg" ∨ ext = "webp" then
    some "image"
  else none

/-- Modelled from the spec: the missing `./lib/determine-as-value` module —
"either a fixed string or a mapping/function from file-extension to as-value",
falling back to the default extension policy when the option is absent. -/
def determineAsValue (href : String) (file : String) (optionsAs : AsOption) : Option String :=
  match optionsAs with
  | AsOption.fixed s => some s
  | AsOption.byExtension f => f (fileExtension file)
  | AsOption.undef =>
    let _ := href
    defaultAsPolicy (fileExtension file)

/-- Modelled from the spec: the missing `./lib/extract-chunks` module —
"given a compilation's internal chunk/module graph and an inclusion mode,
returns the flat set of candidate chunks" (`allChunks` | `asyncChunks` |
`initial` | `allAssets`). -/
def extractChunks (compilation : Compilation) (optionsInclude : String) : List Chunk :=
  if optionsInclude = "initial" then compilation.chunks.filter (fun c => c.initial)
  else if optionsInclude = "asyncChunks" then compilation.chunks.filter (fun c => !c.initial)
  else compilation.chunks

/-- Modelled from the spec: the missing `./lib/does-chunk-belong-to-html`
module — "true if any file owned by the chunk appears in that referenced set",
the referenced set being derived from the html plugin's chunk infos (entry and
css files), which is what the call site passes as `htmlAssetsChunks`. -/
def doesChunkBelongToHTML (chunk : Chunk) (htmlAssetsChunks : List ChunkInfo) : Bool :=
  chunk.files.any (fun f =>
    htmlAssetsChunks.any (fun info => info.entry == some f || info.css.contains f))

/-- The `htmlChunks` local of `generateLinks`: all extracted chunks when
`include === 'allAssets'`, otherwise only those belonging to this document. -/
def htmlChunksOf (options : Options) (compilation : Compilation)
    (htmlPluginData : HtmlPluginData) : List Chunk :=
  let extractedChunks := extractChunks compilation options.«include»
  if options.«include» = "allAssets" then extractedChunks
  else extractedChunks.filter (fun chunk =>
    doesChunkBelongToHTML chunk (htmlPluginData.assets.chunks.map (fun p => p.2)))

/-- The `allFiles` local of `generateLinks`: the chunks' file lists flattened
by `reduce`/`concat`. -/
def allFilesOf (options : Options) (compilation : Compilation)
    (htmlPluginData : HtmlPluginData) : List String :=
  (htmlChunksOf options compilation htmlPluginData).foldl
    (fun accumulated chunk => accumulated ++ chunk.files) []

/-- Insertion-order de-duplication, the semantics of `new Set(allFiles)`
followed by spreading: each path is kept at its first occurrence. -/
def jsSetDedupGo (seen : List String) : List String → List String
  | [] => []
  | x :: xs => if x ∈ seen then jsSetDedupGo seen xs else x :: jsSetDedupGo (x :: seen) xs

/-- `[...new Set(l)]`. -/
def jsSetDedup (l : List String) : List String := jsSetDedupGo [] l

/-- The `filteredFiles` local of `generateLinks`: whitelist filter (retain on
any match, or when no whitelist is configured) then blacklist filter (drop on
any match). -/
def filteredFilesOf (options : Options) (compilation : Compilation)
    (htmlPluginData : HtmlPluginData) : List String :=
  ((jsSetDedup (allFilesOf options compilation htmlPluginData)).filter (fun file =>
      match options.fileWhitelist with
      | none => true
      | some fileWhitelist => fileWhitelist.any (fun regex => regex file))).filter
    (fun file =>
      match options.fileBlacklist with
      | none => true
      | some fileBlacklist => fileBlacklist.all (fun regex => !(regex file)))

/-- Lexicographic comparison of character lists by code point. -/
def charListLe : List Char → List Char → Bool
  | [], _ => true
  | _ :: _, [] => false
  | a :: as, b :: bs =>
    if a.toNat < b.toNat then true
    else if b.toNat < a.toNat then false
    else charListLe as bs

/-- Lexicographic (code-point) comparison on strings, the default string
comparator of `Array.prototype.sort`. -/
def lexLe (a b : String) : Bool := charListLe a.data b.data

/-- `filteredFiles.sort()`.  Since `lexLe` is a total antisymmetric order,
the sorted arrangement of a list is unique, so insertion sort computes exactly
the result of `Array.prototype.sort` under the default string comparator. -/
def jsSortStrings (l : List String) : List String :=
  List.insertionSort (fun a b => lexLe a b = true) l

/-- The `sortedFilteredFiles` local of `generateLinks`. -/
def sortedFilteredFilesOf (options : Options) (compilation : Compilation)
    (htmlPluginData : HtmlPluginData) : List String :=
  jsSortStrings (filteredFilesOf options compilation htmlPluginData)

/-- `compilation.outputOptions.publicPath || ''`. -/
def publicPathOf (compilation : Compilation) : String :=
  (compilation.outputOptions.publicPath).getD ""

/-- The attributes built for one file inside the loop of `generateLinks`: the
`as` and `crossorigin` attributes are only set when `rel === 'preload'`, and
`crossorigin` only when the resolved `as` value is `'font'`. -/
def attributesFor (options : Options) (href : String) (file : String) : Attributes :=
  if options.rel = "preload" then
    let asValue := determineAsValue href file options.as
    { href := href, rel := options.rel, as := asValue,
      crossorigin := if asValue = some "font" then some "" else none }
  else
    { href := href, rel := options.rel, as := none, crossorigin := none }

/-- The loop body of `generateLinks`: prefix the public path, build the
attributes, and wrap them in the tag object literal
`{tagName: 'link', attributes, voidTag: true}`. -/
def linkFor (options : Options) (publicPath : String) (file : String) : Tag :=
  let href := publicPath ++ file
  [("tagName", TagValue.str "link"),
    ("attributes", TagValue.attrs (attributesFor options href file)),
    ("voidTag", TagValue.bool true)]

/-- `PreloadPlugin.generateLinks(compilation, htmlPluginData)`.  The result
carries the updated plugin state (the method assigns `this.resourceHints`)
together with the compilation and html-plugin data as left by the method, so
that absence of mutation is a provable statement. -/
def generateLinks (s : PluginState) (compilation : Compilation)
    (htmlPluginData : HtmlPluginData) : PluginState × Compilation × HtmlPluginData :=
  let links := (sortedFilteredFilesOf s.options compilation htmlPluginData).map
    (linkFor s.options (publicPathOf compilation))
  ({ s with resourceHints := some links }, compilation, htmlPluginData)

/-- The `skip` helper of `apply`: skip a document when an include-name list is
configured and does not contain its filename, or when an exclude-name list is
configured and contains it. -/
def skip (options : Options) (data : HtmlPluginData) : Bool :=
  let htmlFilename := data.plugin.options.filename
  (match options.includeHtmlNames with
   | some includeNames => !(decide (htmlFilename ∈ includeNames))
   | none => false) ||
  (match options.excludeHtmlNames with
   | some excludeNames => decide (htmlFilename ∈ excludeNames)
   | none => false)

/-- The `appendHash` helper of `apply`: empty (falsy) urls are returned
unchanged; otherwise the hash is appended after `?` when the url has no `?`
yet (`url.indexOf('?') === -1`) and after `&` when it has one. -/
def appendHash (url : String) (hash : String) : String :=
  if url = "" then url
  else url ++ (if url.data.contains '?' = false then "?" else "&") ++ hash

/-- Match of the regex `/.js($|\?)/` at the head of a character list: any
character, then `js`, then end of input or a literal `?`. -/
def dotJsAt : List Char → Bool
  | _ :: 'j' :: 's' :: rest => rest.isEmpty || rest.head? == some '?'
  | _ => false

/-- Match of the regex `/.css($|\?)/` at the head of a character list. -/
def dotCssAt : List Char → Bool
  | _ :: 'c' :: 's' :: 's' :: rest => rest.isEmpty || rest.head? == some '?'
  | _ => false

/-- An unanchored regex matches when it matches at some position. -/
def anyPosition (p : List Char → Bool) : List Char → Bool
  | [] => p []
  | c :: rest => p (c :: rest) || anyPosition p rest

/-- `/.js($|\?)/.test(s)`. -/
def testDotJs (s : String) : Bool := anyPosition dotJsAt s.data

/-- `/.css($|\?)/.test(s)`. -/
def testDotCss (s : String) : Bool := anyPosition dotCssAt s.data

/-- JS object property assignment `m[k] = v` on the association-list model:
replace the binding when the key is present, append it otherwise. -/
def setKey (m : List (String × ChunkInfo)) (k : String) (v : ChunkInfo) :
    List (String × ChunkInfo) :=
  if m.any (fun p => p.1 == k) then m.map (fun p => if p.1 == k then (k, v) else p)
  else m ++ [(k, v)]

/-- `Object.assign(target, source)` on the association-list model. -/
def objectAssign (target source : List (String × ChunkInfo)) : List (String × ChunkInfo) :=
  source.foldl (fun t p => setKey t p.1 p.2) target

/-- `chunk.names[0] || chunk.idHints[0]`: the first truthy (non-empty) choice;
a JS `undefined` used as a property key would coerce to the string
`"undefined"`. -/
def jsStringOr (a b : Option String) : String :=
  match a with
  | some s => if s ≠ "" then s else (match b with | some t => t | none => "undefined")
  | none => match b with | some t => t | none => "undefined"

/-- One step of the reducer returned by `buildReducer(compilation,
htmlPluginData)`: when some public-path-prefixed file of the chunk is among
the document's script or style assets, record a `ChunkInfo` under the chunk's
name — entry/size/hash when a `.js` file is found, the `.css` files always —
after optionally appending the compilation hash for cache busting. -/
def buildReducerStep (compilation : Compilation) (htmlPluginData : HtmlPluginData)
    (chunksAcc : List (String × ChunkInfo)) (chunk : Chunk) :
    List (String × ChunkInfo) :=
  let publicPath := publicPathOf compilation
  let chunkFiles := chunk.files.map (fun chunkFile => publicPath ++ chunkFile)
  if chunkFiles.any (fun file =>
      htmlPluginData.assets.js.contains file || htmlPluginData.assets.css.contains file) then
    let chunkName := jsStringOr chunk.names.head? chunk.idHints.head?
    let chunkFiles := if htmlPluginData.plugin.options.hash then
        chunkFiles.map (fun chunkFile => appendHash chunkFile compilation.hash)
      else chunkFiles
    let js := chunkFiles.find? (fun chunkFile => testDotJs chunkFile)
    let css := chunkFiles.filter (fun chunkFile => testDotCss chunkFile)
    let info : ChunkInfo :=
      match js with
      | some j => { size := some chunk.size, entry := some j, hash := some chunk.hash, css := css }
      | none => { size := none, entry := none, hash := none, css := css }
    setKey chunksAcc chunkName info
  else chunksAcc

/-- The callback tapped on the before-processing hook: for version ≥ 4 hosts,
first merge the synthesized chunk-name → info map (built from the stats
snapshot) into `assets.chunks`; then, unless the document is skipped, run
`generateLinks`. -/
def beforeHookTap (s : PluginState) (compilation : Compilation)
    (htmlPluginData : HtmlPluginData) : PluginState × HtmlPluginData :=
  let htmlPluginData :=
    if htmlPluginData.plugin.version ≥ 4 then
      let chunks := compilation.statsChunks
      { htmlPluginData with
        assets := { htmlPluginData.assets with
          chunks := objectAssign htmlPluginData.assets.chunks
            (chunks.foldl (buildReducerStep compilation htmlPluginData) []) } }
    else htmlPluginData
  if skip s.options htmlPluginData then (s, htmlPluginData)
  else
    let r := generateLinks s compilation htmlPluginData
    (r.1, r.2.2)

/-- The callback tapped on the after-processing hook: unless the document is
skipped, and when `this.resourceHints` is set (any array is truthy), prepend
the pending hints to `headTags` (version ≥ 4) or `head` (older hosts). -/
def afterHookTap (s : PluginState) (htmlPluginData : HtmlPluginData) : HtmlPluginData :=
  if skip s.options htmlPluginData then htmlPluginData
  else
    match s.resourceHints with
    | some resourceHints =>
      if htmlPluginData.plugin.version ≥ 4 then
        { htmlPluginData with headTags := resourceHints ++ htmlPluginData.headTags }
      else
        { htmlPluginData with head := resourceHints ++ htmlPluginData.head }
    | none => htmlPluginData

/-! Concrete inputs used by the witnesses and counterexamples. -/

/-- A default-style configuration: preload over all assets, no filters. -/
def optW : Options :=
  { rel := "preload", «include» := "allAssets", as := AsOption.undef,
    fileWhitelist := none, fileBlacklist := none,
    includeHtmlNames := none, excludeHtmlNames := none }

/-- A chunk owning one script file. -/
def chunkMain : Chunk :=
  { files := ["main.a1b2.js"], names := ["main"], idHints := [], size := 10,
    hash := "h1", initial := true }

/-- A chunk owning a script, a style, and a file shared with `chunkMain`. -/
def chunkVendor : Chunk :=
  { files := ["vendor.c3d4.js", "vendor.c3d4.css", "main.a1b2.js"],
    names := ["vendor"], idHints := [], size := 20, hash := "h2", initial := true }

/-- A compilation with two overlapping chunks and a public path. -/
def compW : Compilation :=
  { chunks := [chunkMain, chunkVendor],
    outputOptions := { publicPath := some "/static/" },
    hash := "chash", statsChunks := [] }

/-- A version-4 document descriptor with empty tag lists. -/
def htmlW : HtmlPluginData :=
  { plugin := { version := 4, options := { filename := "index.html", hash := false } },
    assets := { js := [], css := [], chunks := [] },
    headTags := [], head := [] }

/-- A fresh plugin state over `optW`. -/
def stateW : PluginState := { options := optW, resourceHints := none }

/-- `optW` with `rel` set to `"prefetch"`. -/
def optPrefetch : Options := { optW with rel := "prefetch" }

/-- A plugin state over `optPrefetch`. -/
def statePrefetch : PluginState := { options := optPrefetch, resourceHints := none }

/-- `optW` with a whitelist and a blacklist that both match `"a.js"`. -/
def optWB : Options :=
  { optW with
    fileWhitelist := some [fun file => file == "a.js"],
    fileBlacklist := some [fun file => file == "a.js"] }

/-- A plugin state over `optWB`. -/
def stateWB : PluginState := { options := optWB, resourceHints := none }

/-- A chunk owning a single font file. -/
def chunkFont : Chunk :=
  { files := ["font.woff2"], names := ["fonts"], idHints := [], size := 5,
    hash := "h3", initial := true }

/-- A compilation holding only `chunkFont`, with no public path. -/
def compFont : Compilation :=
  { chunks := [chunkFont], outputOptions := { publicPath := none },
    hash := "chash", statsChunks := [] }

/-- A chunk owning a single script file `a.js`. -/
def chunkA : Chunk :=
  { files := ["a.js"], names := ["a"], idHints := [], size := 1,
    hash := "ha", initial := true }

/-- A compilation holding only `chunkA`, with no public path. -/
def compA : Compilation :=
  { chunks := [chunkA], outputOptions := { publicPath := none },
    hash := "chash", statsChunks := [] }

/-- The single link tag `generateLinks` produces for `compA` under `optW`. -/
def linkA : Tag :=
  [("tagName", TagValue.str "link"),
    ("attributes", TagValue.attrs
      { href := "a.js", rel := "preload", as := some "script", crossorigin := none }),
    ("voidTag", TagValue.bool true)]

/-- The attributes `generateLinks` produces for `a.js` under `optPrefetch`. -/
def attrPrefA : Attributes :=
  { href := "a.js", rel := "prefetch", as := none, crossorigin := none }

/-- The link tag `generateLinks` produces for `compA` under `optPrefetch`. -/
def linkPrefA : Tag :=
  [("tagName", TagValue.str "link"), ("attributes", TagValue.attrs attrPrefA),
    ("voidTag", TagValue.bool true)]

/-- The attributes `generateLinks` produces for `font.woff2` under `optW`. -/
def attrFont : Attributes :=
  { href := "font.woff2", rel := "preload", as := some "font", crossorigin := some "" }

/-- The link tag `generateLinks` produces for `compFont` under `optW`. -/
def linkFont : Tag :=
  [("tagName", TagValue.str "link"), ("attributes", TagValue.attrs attrFont),
    ("voidTag", TagValue.bool true)]

/-- `optW` with `excludeHtmlNames` listing `index.html`. -/
def optExclude : Options := { optW with excludeHtmlNames := some ["index.html"] }

/-- A plugin state over `optExclude`. -/
def stateExclude : PluginState := { options := optExclude, resourceHints := none }

/-- A host-assembled head tag. -/
def hostTag : Tag := [("tagName", TagValue.str "meta")]

/-- A document descriptor that already carries a host head tag. -/
def htmlWithHead : HtmlPluginData := { htmlW with headTags := [hostTag] }

/-- A plugin state over `optW` whose pending hints are `[linkA]`. -/
def stateHints : PluginState := { options := optW, resourceHints := some [linkA] }

/-- A plugin state over `optW` whose pending hints are the empty list. -/
def stateEmptyHints : PluginState := { options := optW, resourceHints := some [] }

/-! Helper lemmas about the de-duplication and sorting steps. -/

theorem mem_jsSetDedupGo (a : String) :
    ∀ (l seen : List String), a ∈ jsSetDedupGo seen l ↔ a ∈ l ∧ a ∉ seen := by
  intro l
  induction l with
  | nil => intro seen; simp [jsSetDedupGo]
  | cons x xs ih =>
    intro seen
    by_cases hx : x ∈ seen
    · rw [jsSetDedupGo, if_pos hx, ih]
      constructor
      · rintro ⟨h1, h2⟩; exact ⟨List.mem_cons_of_mem _ h1, h2⟩
      · rintro ⟨h1, h2⟩
        rcases List.mem_cons.mp h1 with rfl | h
        · exact absurd hx h2
        · exact ⟨h, h2⟩
    · rw [jsSetDedupGo, if_neg hx]
      by_cases hax : a = x
      · subst hax; simp [hx]
      · simp [List.mem_cons, hax, ih]

theorem nodup_jsSetDedupGo : ∀ (l seen : List String), (jsSetDedupGo seen l).Nodup := by
  intro l
  induction l with
  | nil => intro seen; simp [jsSetDedupGo]
  | cons x xs ih =>
    intro seen
    by_cases hx : x ∈ seen
    · rw [jsSetDedupGo, if_pos hx]; exact ih seen
    · rw [jsSetDedupGo, if_neg hx, List.nodup_cons]
      refine ⟨fun hmem => ?_, ih _⟩
      exact ((mem_jsSetDedupGo x xs (x :: seen)).mp hmem).2 (List.mem_cons_self x seen)

theorem mem_jsSetDedup (a : String) (l : List String) : a ∈ jsSetDedup l ↔ a ∈ l := by
  rw [jsSetDedup, mem_jsSetDedupGo]; simp

theorem nodup_jsSetDedup (l : List String) : (jsSetDedup l).Nodup :=
  nodup_jsSetDedupGo l []

theorem charListLe_trans : ∀ (a b c : List Char),
    charListLe a b = true → charListLe b c = true → charListLe a c = true := by
  intro a
  induction a with
  | nil => intro b c _ _; cases c <;> simp [charListLe]
  | cons x xs ih =>
    intro b c hab hbc
    cases b with
    | nil => simp [charListLe] at hab
    | cons y ys =>
      cases c with
      | nil => simp [charListLe] at hbc
      | cons z zs =>
        rw [charListLe] at hab hbc ⊢
        split_ifs at hab hbc ⊢ <;>
          first
          | rfl
          | omega
          | exact ih ys zs hab hbc

theorem charListLe_total : ∀ (a b : List Char),
    (charListLe a b || charListLe b a) = true := by
  intro a
  induction a with
  | nil => intro b; simp [charListLe]
  | cons x xs ih =>
    intro b
    cases b with
    | nil => simp [charListLe]
    | cons y ys =>
      by_cases hxy : x.toNat < y.toNat
      · simp only [charListLe, if_pos hxy, Bool.true_or]
      · by_cases hyx : y.toNat < x.toNat
        · simp only [charListLe, if_neg hxy, if_pos hyx, Bool.or_true]
        · simp only [charListLe, if_neg hxy, if_neg hyx]
          exact ih ys

instance : IsTrans String (fun a b => lexLe a b = true) :=
  ⟨fun a b c hab hbc => charListLe_trans a.data b.data c.data hab hbc⟩

instance : IsTotal String (fun a b => lexLe a b = true) :=
  ⟨fun a b => by
    have h := charListLe_total a.data b.data
    rw [Bool.or_eq_true] at h
    exact h⟩

theorem filteredFilesOf_no_lists (options : Options) (compilation : Compilation)
    (htmlPluginData : HtmlPluginData) (hw : options.fileWhitelist = none)
    (hb : options.fileBlacklist = none) :
    filteredFilesOf options compilation htmlPluginData =
      jsSetDedup (allFilesOf options compilation htmlPluginData) := by
  simp [filteredFilesOf, hw, hb]

/-- C1: with no fileWhitelist and no fileBlacklist configured, the file list
underlying the links produced by `generateLinks` has no duplicates, contains
exactly the paths contributed by the selected chunks, is sorted in
lexicographic code-point order, and the produced descriptors are its image in
that order. -/
theorem c1_generateLinks_dedup_sorted (s : PluginState) (compilation : Compilation)
    (htmlPluginData : HtmlPluginData)
    (hw : s.options.fileWhitelist = none) (hb : s.options.fileBlacklist = none) :
    (sortedFilteredFilesOf s.options compilation htmlPluginData).Nodup ∧
    (∀ file, file ∈ sortedFilteredFilesOf s.options compilation htmlPluginData ↔
        file ∈ allFilesOf s.options compilation htmlPluginData) ∧
    (sortedFilteredFilesOf s.options compilation htmlPluginData).Pairwise
      (fun a b => lexLe a b = true) ∧
    (generateLinks s compilation htmlPluginData).1.resourceHints =
      some ((sortedFilteredFilesOf s.options compilation htmlPluginData).map
        (linkFor s.options (publicPathOf compilation))) := by
  have hfil := filteredFilesOf_no_lists s.options compilation htmlPluginData hw hb
  refine ⟨?_, ?_, ?_, rfl⟩
  · have hperm := List.perm_insertionSort (fun a b => lexLe a b = true)
      (filteredFilesOf s.options compilation htmlPluginData)
    rw [sortedFilteredFilesOf, jsSortStrings, hperm.nodup_iff, hfil]
    exact nodup_jsSetDedup _
  · intro file
    have hperm := List.perm_insertionSort (fun a b => lexLe a b = true)
      (filteredFilesOf s.options compilation htmlPluginData)
    rw [sortedFilteredFilesOf, jsSortStrings, hperm.mem_iff, hfil, mem_jsSetDedup]
  · exact List.sorted_insertionSort (fun a b => lexLe a b = true)
      (filteredFilesOf s.options compilation htmlPluginData)

/-- Witness for C1 at a concrete compilation with two overlapping chunks. -/
theorem c1_generateLinks_dedup_sorted_witness :
    stateW.options.fileWhitelist = none ∧ stateW.options.fileBlacklist = none ∧
    ((sortedFilteredFilesOf stateW.options compW htmlW).Nodup ∧
      (∀ file, file ∈ sortedFilteredFilesOf stateW.options compW htmlW ↔
          file ∈ allFilesOf stateW.options compW htmlW) ∧
      (sortedFilteredFilesOf stateW.options compW htmlW).Pairwise
        (fun a b => lexLe a b = true) ∧
      (generateLinks stateW compW htmlW).1.resourceHints =
        some ((sortedFilteredFilesOf stateW.options compW htmlW).map
          (linkFor stateW.options (publicPathOf compW)))) :=
  ⟨rfl, rfl, c1_generateLinks_dedup_sorted stateW compW htmlW rfl rfl⟩

theorem string_append_left_cancel {a b c : String} (h : a ++ b = a ++ c) : b = c := by
  have hd := congrArg String.data h
  simp only [String.data_append] at hd
  exact String.ext (List.append_cancel_left hd)

theorem attributesFor_href (options : Options) (href file : String) :
    (attributesFor options href file).href = href := by
  rw [attributesFor]; split <;> rfl

theorem resourceHints_generateLinks (s : PluginState) (compilation : Compilation)
    (htmlPluginData : HtmlPluginData) {L : List Tag}
    (hL : (generateLinks s compilation htmlPluginData).1.resourceHints = some L) :
    L = (sortedFilteredFilesOf s.options compilation htmlPluginData).map
      (linkFor s.options (publicPathOf compilation)) := by
  rw [generateLinks] at hL
  exact (Option.some.inj hL).symm

/-- C2: when `rel` is `"prefetch"`, every produced link descriptor's
attributes carry neither an `as` nor a `crossorigin` attribute, for every
input file path. -/
theorem c2_prefetch_no_as_no_crossorigin (s : PluginState) (compilation : Compilation)
    (htmlPluginData : HtmlPluginData) (hrel : s.options.rel = "prefetch") :
    ∀ L, (generateLinks s compilation htmlPluginData).1.resourceHints = some L →
    ∀ link ∈ L, ∀ a : Attributes, ("attributes", TagValue.attrs a) ∈ link →
      a.as = none ∧ a.crossorigin = none := by
  intro L hL link hlink a ha
  rw [resourceHints_generateLinks s compilation htmlPluginData hL] at hlink
  obtain ⟨file, hfile, rfl⟩ := List.mem_map.mp hlink
  simp [linkFor, attributesFor, hrel] at ha
  subst ha
  exact ⟨rfl, rfl⟩

/-- Witness for C2 at a concrete prefetch run over `compA`. -/
theorem c2_prefetch_no_as_no_crossorigin_witness :
    statePrefetch.options.rel = "prefetch" ∧
    (generateLinks statePrefetch compA htmlW).1.resourceHints = some [linkPrefA] ∧
    (attrPrefA.as = none ∧ attrPrefA.crossorigin = none) :=
  ⟨rfl, by decide,
    c2_prefetch_no_as_no_crossorigin statePrefetch compA htmlW rfl [linkPrefA] (by decide)
      linkPrefA (by decide) attrPrefA (by decide)⟩

/-- C3: a file path matching at least one whitelist pattern and at least one
blacklist pattern is excluded from the output — the blacklist wins. -/
theorem c3_blacklist_wins (s : PluginState) (compilation : Compilation)
    (htmlPluginData : HtmlPluginData) (ws bs : List (String → Bool)) (file : String)
    (_hw : s.options.fileWhitelist = some ws) (hb : s.options.fileBlacklist = some bs)
    (_hwm : ∃ regex ∈ ws, regex file = true) (hbm : ∃ regex ∈ bs, regex file = true) :
    file ∉ sortedFilteredFilesOf s.options compilation htmlPluginData ∧
    ∀ L, (generateLinks s compilation htmlPluginData).1.resourceHints = some L →
      linkFor s.options (publicPathOf compilation) file ∉ L := by
  have hnot : file ∉ filteredFilesOf s.options compilation htmlPluginData := by
    intro hmem
    rw [filteredFilesOf] at hmem
    have h2 := (List.mem_filter.mp hmem).2
    rw [hb] at h2
    obtain ⟨regex, hrmem, hr⟩ := hbm
    have := List.all_eq_true.mp h2 regex hrmem
    rw [hr] at this
    exact absurd this (by decide)
  have hnotS : file ∉ sortedFilteredFilesOf s.options compilation htmlPluginData := by
    rw [sortedFilteredFilesOf, jsSortStrings,
      (List.perm_insertionSort (fun a b => lexLe a b = true) _).mem_iff]
    exact hnot
  refine ⟨hnotS, fun L hL hmem => ?_⟩
  rw [resourceHints_generateLinks s compilation htmlPluginData hL] at hmem
  obtain ⟨f', hf', heq⟩ := List.mem_map.mp hmem
  have hattrs : attributesFor s.options (publicPathOf compilation ++ f') f' =
      attributesFor s.options (publicPathOf compilation ++ file) file := by
    have := congrArg (fun l : Tag => l.get? 1) heq
    simpa [linkFor] using this
  have hhref := congrArg Attributes.href hattrs
  rw [attributesFor_href, attributesFor_href] at hhref
  have hfeq : f' = file := string_append_left_cancel hhref
  rw [hfeq] at hf'
  exact hnotS hf'

/-- Witness for C3: `a.js` matches both the whitelist and the blacklist of
`optWB` and is excluded. -/
theorem c3_blacklist_wins_witness :
    stateWB.options.fileWhitelist = some [fun file => file == "a.js"] ∧
    stateWB.options.fileBlacklist = some [fun file => file == "a.js"] ∧
    ("a.js" ∉ sortedFilteredFilesOf stateWB.options compA htmlW ∧
      ∀ L, (generateLinks stateWB compA htmlW).1.resourceHints = some L →
        linkFor stateWB.options (publicPathOf compA) "a.js" ∉ L) :=
  ⟨rfl, rfl,
    c3_blacklist_wins stateWB compA htmlW [fun file => file == "a.js"]
      [fun file => file == "a.js"] "a.js" rfl rfl
      ⟨fun file => file == "a.js", List.mem_singleton_self _, by decide⟩
      ⟨fun file => file == "a.js", List.mem_singleton_self _, by decide⟩⟩

/-- C4: when `rel` is `"preload"`, a descriptor whose resolved `as` value is
`"font"` carries `crossorigin=""`, and `crossorigin` is set only on such
descriptors. -/
theorem c4_preload_font_crossorigin (s : PluginState) (compilation : Compilation)
    (htmlPluginData : HtmlPluginData) (hrel : s.options.rel = "preload") :
    ∀ L, (generateLinks s compilation htmlPluginData).1.resourceHints = some L →
    ∀ link ∈ L, ∀ a : Attributes, ("attributes", TagValue.attrs a) ∈ link →
      (a.as = some "font" → a.crossorigin = some "") ∧
      (a.crossorigin ≠ none → a.as = some "font" ∧ a.crossorigin = some "") := by
  intro L hL link hlink a ha
  rw [resourceHints_generateLinks s compilation htmlPluginData hL] at hlink
  obtain ⟨file, hfile, rfl⟩ := List.mem_map.mp hlink
  simp [linkFor, attributesFor, hrel] at ha
  subst ha
  by_cases hfont : determineAsValue (publicPathOf compilation ++ file) file s.options.as =
      some "font"
  · simp [hfont]
  · simp [hfont]

/-- Witness for C4 at a concrete preload run over a `.woff2` font file. -/
theorem c4_preload_font_crossorigin_witness :
    stateW.options.rel = "preload" ∧
    (generateLinks stateW compFont htmlW).1.resourceHints = some [linkFont] ∧
    ((attrFont.as = some "font" → attrFont.crossorigin = some "") ∧
      (attrFont.crossorigin ≠ none →
        attrFont.as = some "font" ∧ attrFont.crossorigin = some "")) :=
  ⟨rfl, by decide,
    c4_preload_font_crossorigin stateW compFont htmlW rfl [linkFont] (by decide)
      linkFont (by decide) attrFont (by decide)⟩

theorem skip_ignores_assets (options : Options) (data : HtmlPluginData) (a : Assets) :
    skip options { data with assets := a } = skip options data := rfl

/-- C5: a document whose filename fails the include-name list or is in the
exclude-name list is skipped entirely — the before hook leaves the plugin
state (and in particular its pending hints) unchanged, and the after hook
leaves both tag lists of the document unchanged. -/
theorem c5_skipped_document_untouched (s : PluginState) (compilation : Compilation)
    (htmlPluginData : HtmlPluginData)
    (hskip : (∃ l, s.options.includeHtmlNames = some l ∧
        htmlPluginData.plugin.options.filename ∉ l) ∨
      (∃ l, s.options.excludeHtmlNames = some l ∧
        htmlPluginData.plugin.options.filename ∈ l)) :
    (beforeHookTap s compilation htmlPluginData).1 = s ∧
    (afterHookTap s htmlPluginData).headTags = htmlPluginData.headTags ∧
    (afterHookTap s htmlPluginData).head = htmlPluginData.head := by
  have hsk : skip s.options htmlPluginData = true := by
    rw [skip]
    rcases hskip with ⟨l, hl, hmem⟩ | ⟨l, hl, hmem⟩
    · rw [hl]; simp [hmem]
    · rw [hl]; simp [hmem]
  refine ⟨?_, ?_, ?_⟩
  · rw [beforeHookTap]
    by_cases hv : htmlPluginData.plugin.version ≥ 4 <;>
      simp [hv, skip_ignores_assets, hsk]
  · rw [afterHookTap, if_pos hsk]
  · rw [afterHookTap, if_pos hsk]

/-- Witness for C5: `index.html` is listed in `excludeHtmlNames`. -/
theorem c5_skipped_document_untouched_witness :
    stateExclude.options.excludeHtmlNames = some ["index.html"] ∧
    htmlW.plugin.options.filename ∈ ["index.html"] ∧
    ((beforeHookTap stateExclude compW htmlW).1 = stateExclude ∧
      (afterHookTap stateExclude htmlW).headTags = htmlW.headTags ∧
      (afterHookTap stateExclude htmlW).head = htmlW.head) :=
  ⟨rfl, by decide,
    c5_skipped_document_untouched stateExclude compW htmlW
      (Or.inr ⟨["index.html"], rfl, by decide⟩)⟩

/-- C6: for a non-skipped document with pending hints, the after hook sets the
document's head-tag list to the pending hints followed by the pre-existing
tags (in their original relative orders), leaving the other tag list alone:
`headTags` for version ≥ 4 hosts, `head` for older ones. -/
theorem c6_afterHook_prepends_hints (s : PluginState) (htmlPluginData : HtmlPluginData)
    (hints : List Tag) (hns : skip s.options htmlPluginData = false)
    (hr : s.resourceHints = some hints) :
    (htmlPluginData.plugin.version ≥ 4 →
      (afterHookTap s htmlPluginData).headTags = hints ++ htmlPluginData.headTags ∧
      (afterHookTap s htmlPluginData).head = htmlPluginData.head) ∧
    (¬ htmlPluginData.plugin.version ≥ 4 →
      (afterHookTap s htmlPluginData).head = hints ++ htmlPluginData.head ∧
      (afterHookTap s htmlPluginData).headTags = htmlPluginData.headTags) := by
  constructor <;> intro hv <;> simp [afterHookTap, hns, hr, hv]

/-- Witness for C6 on a version-4 document that already has a head tag. -/
theorem c6_afterHook_prepends_hints_witness :
    skip stateHints.options htmlWithHead = false ∧
    stateHints.resourceHints = some [linkA] ∧
    ((htmlWithHead.plugin.version ≥ 4 →
        (afterHookTap stateHints htmlWithHead).headTags = [linkA] ++ htmlWithHead.headTags ∧
        (afterHookTap stateHints htmlWithHead).head = htmlWithHead.head) ∧
      (¬ htmlWithHead.plugin.version ≥ 4 →
        (afterHookTap stateHints htmlWithHead).head = [linkA] ++ htmlWithHead.head ∧
        (afterHookTap stateHints htmlWithHead).headTags = htmlWithHead.headTags)) :=
  ⟨rfl, rfl, c6_afterHook_prepends_hints stateHints htmlWithHead [linkA] rfl rfl⟩

/-- C7 counterexample: the produced tag objects carry no field named
`isVoidElement`; the void-element marker the source writes is named `voidTag`.
Shown on a concrete run producing exactly one link. -/
theorem c7_counterexample :
    (generateLinks stateW compA htmlW).1.resourceHints = some [linkA] ∧
    linkA.lookup "isVoidElement" = none ∧
    linkA.lookup "voidTag" = some (TagValue.bool true) := by
  refine ⟨by decide, rfl, rfl⟩

/-- C7 (amended): every link descriptor produced by the builder has the shape
`{tagName: "link", attributes: {...}, voidTag: true}` — the void-element
marker field is named `voidTag`, is `true` on every descriptor, and no
`isVoidElement` field exists. -/
theorem c7_links_shape (s : PluginState) (compilation : Compilation)
    (htmlPluginData : HtmlPluginData) :
    ∀ L, (generateLinks s compilation htmlPluginData).1.resourceHints = some L →
    ∀ link ∈ L, link.lookup "tagName" = some (TagValue.str "link") ∧
      (∃ a : Attributes, link.lookup "attributes" = some (TagValue.attrs a)) ∧
      link.lookup "voidTag" = some (TagValue.bool true) ∧
      link.lookup "isVoidElement" = none := by
  intro L hL link hlink
  rw [resourceHints_generateLinks s compilation htmlPluginData hL] at hlink
  obtain ⟨file, hfile, rfl⟩ := List.mem_map.mp hlink
  exact ⟨rfl, ⟨attributesFor s.options (publicPathOf compilation ++ file) file, rfl⟩, rfl, rfl⟩

/-- Witness for the amended C7 on a concrete run. -/
theorem c7_links_shape_witness :
    (generateLinks stateW compA htmlW).1.resourceHints = some [linkA] ∧
    (linkA.lookup "tagName" = some (TagValue.str "link") ∧
      (∃ a : Attributes, linkA.lookup "attributes" = some (TagValue.attrs a)) ∧
      linkA.lookup "voidTag" = some (TagValue.bool true) ∧
      linkA.lookup "isVoidElement" = none) :=
  ⟨by decide,
    c7_links_shape stateW compA htmlW [linkA] (by decide) linkA (by decide)⟩

/-- C8: `generateLinks` is deterministic — the produced descriptor list is a
pure function of the compilation, the configuration and the html-plugin data;
in particular it does not depend on the previously stored hints. -/
theorem c8_generateLinks_deterministic (s₁ s₂ : PluginState) (compilation : Compilation)
    (htmlPluginData : HtmlPluginData) (hopts : s₁.options = s₂.options) :
    (generateLinks s₁ compilation htmlPluginData).1.resourceHints =
      (generateLinks s₂ compilation htmlPluginData).1.resourceHints := by
  simp [generateLinks, hopts]

/-- Witness for C8: two states with the same options but different stored
hints produce the same descriptor list. -/
theorem c8_generateLinks_deterministic_witness :
    stateW.options = stateEmptyHints.options ∧
    (generateLinks stateW compW htmlW).1.resourceHints =
      (generateLinks stateEmptyHints compW htmlW).1.resourceHints :=
  ⟨rfl, c8_generateLinks_deterministic stateW stateEmptyHints compW htmlW rfl⟩

/-- C9: `generateLinks` never mutates the compilation (in particular its
chunks and their file lists) or the html-plugin data; only the plugin
instance's `resourceHints` field changes, and the options are preserved. -/
theorem c9_generateLinks_no_mutation (s : PluginState) (compilation : Compilation)
    (htmlPluginData : HtmlPluginData) :
    (generateLinks s compilation htmlPluginData).2.1 = compilation ∧
    (generateLinks s compilation htmlPluginData).2.2 = htmlPluginData ∧
    (generateLinks s compilation htmlPluginData).2.1.chunks = compilation.chunks ∧
    (generateLinks s compilation htmlPluginData).1.options = s.options :=
  ⟨rfl, rfl, rfl, rfl⟩

/-- C10: `appendHash` returns an empty url unchanged, separates the hash with
`?` when the url has no `?` yet, and with `&` when it already has one — an
already-parameterized url never gains a second `?`. -/
theorem c10_appendHash_spec (url hash : String) :
    (url = "" → appendHash url hash = url) ∧
    (url ≠ "" → url.data.contains '?' = false → appendHash url hash = url ++ "?" ++ hash) ∧
    (url ≠ "" → url.data.contains '?' = true → appendHash url hash = url ++ "&" ++ hash) := by
  refine ⟨fun h => by rw [appendHash, if_pos h], fun h hq => ?_, fun h hq => ?_⟩
  · rw [appendHash, if_neg h, hq, if_pos rfl]
  · rw [appendHash, if_neg h, hq]
    simp

/-- Witness for C10 on a url with a `?` and one without. -/
theorem c10_appendHash_spec_witness :
    ("a?b" ≠ "" ∧ "a?b".data.contains '?' = true ∧
      appendHash "a?b" "h7" = "a?b" ++ "&" ++ "h7") ∧
    ("ab" ≠ "" ∧ "ab".data.contains '?' = false ∧
      appendHash "ab" "h7" = "ab" ++ "?" ++ "h7") :=
  ⟨⟨by decide, by decide, (c10_appendHash_spec "a?b" "h7").2.2 (by decide) (by decide)⟩,
    ⟨by decide, by decide, (c10_appendHash_spec "ab" "h7").2.1 (by decide) (by decide)⟩⟩

end Preload
